import Mathlib

/-!
Verification of the frame decoder in `dataanalyze.py`.

The decoder (`parse_frame`) walks a byte buffer: a fixed header (start flag,
2-byte big-endian length, second start flag, 8-byte address, function byte
whose top bit is the direction, 2-byte sequence), then a loop of data units
(2 DA bytes, 2 DT bytes, a DT-dependent value, an optional result-code byte),
then an optional 2-byte CRC and an optional end flag.

Bytes are modelled as `Nat` entries of a `List Nat` (the Python `bytes`
object); Python arbitrary-precision integers are `Int`/`Nat`.  Python
raising `IndexError` on a single-byte read past the end is modelled by
`Option`: `parse_frame` returns `none` exactly when one of the three
single-byte header reads (offsets 0, 3 and 12) is out of range, since the
2-byte and 8-byte header fields are read by slicing, which Python truncates
silently.  The data-unit `while` loop is modelled by the fuel-indexed
`parse_data_units`; `parse_frame` passes fuel `frame_bytes.length`, and the
lemma `parse_data_units_fuel` below shows any fuel of at least a quarter of
the remaining bytes gives the same result, so the fuel never runs out there
(each iteration of the Python loop consumes at least 4 bytes).
-/

/-- Big-endian unsigned interpretation of a byte list:
Python `int.from_bytes` with big-endian byte order. -/
def bytesToNatBE (l : List Nat) : Nat :=
  l.foldl (fun acc b => acc * 256 + b) 0

/-- Big-endian signed (twos-complement) interpretation:
Python `int.from_bytes` with big-endian byte order and `signed=True`. -/
def bytesToIntBE (l : List Nat) : Int :=
  if 128 ≤ l.headD 0 then (bytesToNatBE l : Int) - (256 : Int) ^ l.length
  else (bytesToNatBE l : Int)

/-- One uppercase hex digit, as produced by Python `bytes.hex().upper()`. -/
def hexDigitU (n : Nat) : Char :=
  if n < 10 then Char.ofNat (48 + n) else Char.ofNat (55 + n)

/-- Python `data_val.hex().upper()` (used only by the dead `F5` branch). -/
def hexUpper (l : List Nat) : String :=
  ⟨l.foldr (fun b cs => hexDigitU (b / 16) :: hexDigitU (b % 16) :: cs) []⟩

/-- Python `data_val.decode` with the ascii codec and `errors=ignore`: every byte below 128
becomes a character, every other byte is dropped. -/
def asciiDecodeIgnore (l : List Nat) : String :=
  ⟨(l.filter (fun b => b < 128)).map Char.ofNat⟩

/-- The helper `parse_da_table_number` from `dataanalyze.py`:
`base_number = (da_h - 1) * 8 + 1`, then for each bit index `i` in 0..7 set
in `da_l`, add `base_number + i` to the accumulator.  Python subtraction can
go below zero (for `da_h = 0`), hence the result is an `Int`. -/
def parse_da_table_number (da_bytes : List Nat) : Int :=
  let da_h := da_bytes.headD 0
  let da_l := da_bytes.getD 1 0
  let base_number : Int := ((da_h : Int) - 1) * 8 + 1
  (List.range 8).foldl
    (fun total i =>
      if da_l &&& (1 <<< i) ≠ 0 then total + (base_number + (i : Int)) else total)
    0

/-- The `data_type` strings of the Python source (`F1` .. `F5`). -/
inductive DType
  | F1 | F2 | F3 | F4 | F5
deriving DecidableEq

/-- A decoded `value` field: Python stores an `int` (signed or unsigned
decode), an ASCII `str` (type `F2`) or a hex `str` (dead type `F5`). -/
inductive DataValue
  | int (i : Int)
  | text (s : String)
  | hex (s : String)
deriving DecidableEq

/-- One entry of `data_units`, mirroring the dict appended by `parse_frame`
(the Python `DA`/`DT` hex strings are kept as the raw byte lists). -/
structure DataUnit where
  DA : List Nat
  DA_table_number : Int
  DT : List Nat
  value : DataValue
  result_code : Option Nat
  data_type : DType
  length : Nat
deriving DecidableEq

/-- The decode result dict of `parse_frame`. -/
structure Frame where
  start_flag : Nat
  length : Nat
  start_flag2 : Nat
  address : List Nat
  afn : Nat
  dir : Nat
  seq : List Nat
  data_units : List DataUnit
  crc : Option Nat
  end_flag : Option Nat
deriving DecidableEq

/-- The `dt_mapping` dict: DT value to `(data_type, fixed_length)`; `none`
stands for the Python string `var` (type `F2`, whose length is read from
the stream), and the dict-lookup default is `(F1, 4)`. -/
def dt_mapping (dt : Nat) : DType × Option Nat :=
  if dt = 1 then (DType.F1, some 4)
  else if dt = 2 then (DType.F2, none)
  else if dt = 8 then (DType.F4, some 8)
  else if dt = 4 then (DType.F3, some 4)
  else (DType.F1, some 4)

/-- The fixed-length value decode of `parse_frame`: `F1`/`F3` signed
big-endian, `F4` unsigned big-endian, `F5` uppercase hex (dead with the
mapping above, kept for faithfulness). -/
def decode_fixed_value (data_type : DType) (data_val : List Nat) : DataValue :=
  if data_type = DType.F1 ∨ data_type = DType.F3 then DataValue.int (bytesToIntBE data_val)
  else if data_type = DType.F4 then DataValue.int (bytesToNatBE data_val)
  else DataValue.hex (hexUpper data_val)

/-- Outcome of one pass of the data-unit loop body: either a `break` at the
given offset (the bytes consumed before the break stay consumed), or one
parsed unit together with the offset of the next unit. -/
inductive StepResult
  | stop (offset : Nat)
  | unit (u : DataUnit) (offset : Nat)
deriving DecidableEq

/-- The body of the data-unit `while` loop of `parse_frame`, from
`da_dt = frame_bytes[offset:offset + 4]` up to `data_units.append(...)`.
Every early `break` of the Python loop becomes a `StepResult.stop` carrying
the offset reached so far. -/
def parse_one_unit (frame_bytes : List Nat) (dir afn offset : Nat) : StepResult :=
  let da_dt := (frame_bytes.drop offset).take 4
  let da_val := da_dt.take 2
  let da_table_number := parse_da_table_number da_val
  let dt_val := da_dt.drop 2
  let dt_int := bytesToNatBE dt_val
  let data_type := (dt_mapping dt_int).1
  if data_type = DType.F2 then
    -- F2: 2-byte big-endian length prefix, then that many ASCII bytes
    if frame_bytes.length - (offset + 4) < 2 then StepResult.stop (offset + 4)
    else
      let ascii_length := bytesToNatBE ((frame_bytes.drop (offset + 4)).take 2)
      if frame_bytes.length - (offset + 6) < ascii_length then StepResult.stop (offset + 6)
      else
        let data_result :=
          DataValue.text (asciiDecodeIgnore ((frame_bytes.drop (offset + 6)).take ascii_length))
        if dir = 1 ∧ afn = 6 then
          if frame_bytes.length - (offset + 6 + ascii_length) < 1 then
            StepResult.stop (offset + 6 + ascii_length)
          else
            StepResult.unit ⟨da_val, da_table_number, dt_val, data_result,
              some (frame_bytes.getD (offset + 6 + ascii_length) 0), data_type, ascii_length⟩
              (offset + 6 + ascii_length + 1)
        else
          StepResult.unit ⟨da_val, da_table_number, dt_val, data_result, none,
            data_type, ascii_length⟩ (offset + 6 + ascii_length)
  else
    match (dt_mapping dt_int).2 with
    | some n =>
      -- Python `elif fixed_length:` (`n = 0` would be falsy and break)
      if n = 0 then StepResult.stop (offset + 4)
      else if frame_bytes.length - (offset + 4) < n then StepResult.stop (offset + 4)
      else
        let data_result := decode_fixed_value data_type ((frame_bytes.drop (offset + 4)).take n)
        if dir = 1 ∧ afn = 6 then
          if frame_bytes.length - (offset + 4 + n) < 1 then StepResult.stop (offset + 4 + n)
          else
            StepResult.unit ⟨da_val, da_table_number, dt_val, data_result,
              some (frame_bytes.getD (offset + 4 + n) 0), data_type, n⟩ (offset + 4 + n + 1)
        else
          StepResult.unit ⟨da_val, da_table_number, dt_val, data_result, none, data_type, n⟩
            (offset + 4 + n)
    | none =>
      -- Python `else: break` (unreachable: only `F2` maps to `var`)
      StepResult.stop (offset + 4)

/-- The data-unit `while` loop of `parse_frame`, one fuel step per pass (the
loop is bounded: each pass consumes at least 4 bytes, see
`parse_data_units_fuel`).  Returns the accumulated units and the final
offset. -/
def parse_data_units (frame_bytes : List Nat) (dir afn : Nat) :
    Nat → Nat → List DataUnit → List DataUnit × Nat
  | 0, offset, acc => (acc, offset)
  | fuel + 1, offset, acc =>
    -- while (len(frame_bytes) - offset) > 3
    if 3 < frame_bytes.length - offset then
      -- if (len(frame_bytes) - offset) < 4: break   (redundant in the source)
      if frame_bytes.length - offset < 4 then (acc, offset)
      else
        match parse_one_unit frame_bytes dir afn offset with
        | StepResult.stop offset1 => (acc, offset1)
        | StepResult.unit u offset1 => parse_data_units frame_bytes dir afn fuel offset1 (acc ++ [u])
    else (acc, offset)

/-- Steps 7 and 8 of `parse_frame`: after the scan stops at `offset`, read a
2-byte big-endian `crc` if at least 2 bytes remain (else `None`), then read
one `end_flag` byte if at least 1 byte remains (else `None`). -/
def read_trailer (b : List Nat) (offset : Nat) : Option Nat × Option Nat :=
  let crcPair : Option Nat × Nat :=
    if 2 ≤ b.length - offset then
      (some (bytesToNatBE ((b.drop offset).take 2)), offset + 2)
    else (none, offset)
  (crcPair.1,
    if 1 ≤ b.length - crcPair.2 then some (b.getD crcPair.2 0) else none)

/-- The decoder `parse_frame`: `none` models the `IndexError` raised by the
single-byte header reads `frame_bytes[0]`, `frame_bytes[3]`,
`frame_bytes[12]` on a too-short buffer. -/
def parse_frame (frame_bytes : List Nat) : Option Frame := do
  let start_flag ← frame_bytes[0]?
  let length := bytesToNatBE ((frame_bytes.drop 1).take 2)
  let start_flag2 ← frame_bytes[3]?
  let address := (frame_bytes.drop 4).take 8
  let afn ← frame_bytes[12]?
  let dir := (afn &&& 0x80) >>> 7
  let seq := (frame_bytes.drop 13).take 2
  let scanned := parse_data_units frame_bytes dir afn frame_bytes.length 15 []
  let trailer := read_trailer frame_bytes scanned.2
  pure {
    start_flag := start_flag, length := length, start_flag2 := start_flag2,
    address := address, afn := afn, dir := dir, seq := seq,
    data_units := scanned.1, crc := trailer.1, end_flag := trailer.2 }

/-- Total companion of `parse_frame` for reasoning: when the buffer is long
enough for the header (13 bytes and more), `parse_frame` succeeds and
returns exactly this frame (`parse_frame_eq` below). -/
def mkFrame (b : List Nat) : Frame :=
  let afn := (b[12]?).getD 0
  let dir := (afn &&& 0x80) >>> 7
  let scanned := parse_data_units b dir afn b.length 15 []
  let trailer := read_trailer b scanned.2
  { start_flag := (b[0]?).getD 0
    length := bytesToNatBE ((b.drop 1).take 2)
    start_flag2 := (b[3]?).getD 0
    address := (b.drop 4).take 8
    afn := afn, dir := dir
    seq := (b.drop 13).take 2
    data_units := scanned.1
    crc := trailer.1
    end_flag := trailer.2 }

/-- The offset at which the data-unit scan of `parse_frame` stops on `b`
(where the trailer reader starts). -/
def scan_end (b : List Nat) : Nat :=
  (parse_data_units b ((((b[12]?).getD 0) &&& 0x80) >>> 7) ((b[12]?).getD 0) b.length 15 []).2

/-- Success criterion: `parse_frame` succeeds exactly on buffers of at least 13 bytes, and then
computes `mkFrame`: all three raising header reads are below offset 13. -/
lemma parse_frame_eq (b : List Nat) :
    parse_frame b = if 13 ≤ b.length then some (mkFrame b) else none := by
  by_cases h : 13 ≤ b.length
  · obtain ⟨x0, h0⟩ : ∃ x, b[0]? = some x := ⟨_, List.getElem?_eq_getElem (by omega)⟩
    obtain ⟨x3, h3⟩ : ∃ x, b[3]? = some x := ⟨_, List.getElem?_eq_getElem (by omega)⟩
    obtain ⟨x12, h12⟩ : ∃ x, b[12]? = some x := ⟨_, List.getElem?_eq_getElem (by omega)⟩
    rw [if_pos h]
    simp [parse_frame, mkFrame, h0, h3, h12]
  · have h12 : b[12]? = none := by
      rw [List.getElem?_eq_none_iff]; omega
    rw [if_neg h]
    cases h0 : b[0]? <;> cases h3 : b[3]? <;> simp [parse_frame, h0, h3, h12]

/-- Destructuring of a successful decode. -/
lemma parse_frame_some {b : List Nat} {f : Frame} (h : parse_frame b = some f) :
    13 ≤ b.length ∧ f = mkFrame b := by
  rw [parse_frame_eq] at h
  by_cases hl : 13 ≤ b.length
  · rw [if_pos hl] at h
    exact ⟨hl, (Option.some.inj h).symm⟩
  · rw [if_neg hl] at h
    cases h

/-- When fewer than 4 bytes remain, the scan loop stops at once. -/
lemma parse_data_units_stop (frame_bytes : List Nat) (dir afn : Nat)
    (fuel offset : Nat) (acc : List DataUnit) (h : frame_bytes.length - offset ≤ 3) :
    parse_data_units frame_bytes dir afn fuel offset acc = (acc, offset) := by
  cases fuel with
  | zero => rfl
  | succ fuel => rw [parse_data_units, if_neg (by omega)]

/-- What the loop body guarantees about a unit it appends, relative to the
offset `offset` where the `DA` byte of the unit sits. -/
def GoodUnit (frame_bytes : List Nat) (dir afn offset : Nat) (u : DataUnit) : Prop :=
  u.DA = ((frame_bytes.drop offset).take 4).take 2 ∧
  u.DT = ((frame_bytes.drop offset).take 4).drop 2 ∧
  u.DA_table_number = parse_da_table_number u.DA ∧
  u.data_type = (dt_mapping (bytesToNatBE u.DT)).1 ∧
  (u.result_code = none ↔ ¬(dir = 1 ∧ afn = 6)) ∧
  (if (dt_mapping (bytesToNatBE u.DT)).1 = DType.F2 then
      u.length = bytesToNatBE ((frame_bytes.drop (offset + 4)).take 2) ∧
      offset + 6 + u.length ≤ frame_bytes.length ∧
      u.value = DataValue.text (asciiDecodeIgnore ((frame_bytes.drop (offset + 6)).take u.length))
    else
      (dt_mapping (bytesToNatBE u.DT)).2 = some u.length ∧
      offset + 4 + u.length ≤ frame_bytes.length ∧
      u.value = decode_fixed_value u.data_type ((frame_bytes.drop (offset + 4)).take u.length))

/-- Full case analysis of the loop body: it either breaks, having consumed
at least the 4 `DA`+`DT` bytes of the aborted unit, or appends one unit,
consuming at least 4 and at most all remaining bytes, and the appended unit
satisfies `GoodUnit`. -/
lemma parse_one_unit_spec (frame_bytes : List Nat) (dir afn offset : Nat) :
    (∃ o1, parse_one_unit frame_bytes dir afn offset = StepResult.stop o1 ∧ offset + 4 ≤ o1) ∨
    (∃ u o1, parse_one_unit frame_bytes dir afn offset = StepResult.unit u o1 ∧
      offset + 4 ≤ o1 ∧ o1 ≤ frame_bytes.length ∧ GoodUnit frame_bytes dir afn offset u) := by
  unfold parse_one_unit
  dsimp only
  split
  next hF2 =>
    split
    next h2 => exact Or.inl ⟨_, rfl, by omega⟩
    next h2 =>
      split
      next h3 => exact Or.inl ⟨_, rfl, by omega⟩
      next h3 =>
        split
        next hc =>
          split
          next h5 => exact Or.inl ⟨_, rfl, by omega⟩
          next h5 =>
            refine Or.inr ⟨_, _, rfl, by omega, by omega, ?_⟩
            refine ⟨rfl, rfl, rfl, rfl, by simp [hc], ?_⟩
            dsimp only
            rw [if_pos hF2]
            exact ⟨rfl, by omega, rfl⟩
        next hc =>
          refine Or.inr ⟨_, _, rfl, by omega, by omega, ?_⟩
          refine ⟨rfl, rfl, rfl, rfl, by simp [hc], ?_⟩
          dsimp only
          rw [if_pos hF2]
          exact ⟨rfl, by omega, rfl⟩
  next hF2 =>
    split
    next n heq =>
      split
      next hn0 => exact Or.inl ⟨_, rfl, by omega⟩
      next hn0 =>
        split
        next hlen => exact Or.inl ⟨_, rfl, by omega⟩
        next hlen =>
          split
          next hc =>
            split
            next h5 => exact Or.inl ⟨_, rfl, by omega⟩
            next h5 =>
              refine Or.inr ⟨_, _, rfl, by omega, by omega, ?_⟩
              refine ⟨rfl, rfl, rfl, rfl, by simp [hc], ?_⟩
              dsimp only
              rw [if_neg hF2]
              exact ⟨heq, by omega, rfl⟩
          next hc =>
            refine Or.inr ⟨_, _, rfl, by omega, by omega, ?_⟩
            refine ⟨rfl, rfl, rfl, rfl, by simp [hc], ?_⟩
            dsimp only
            rw [if_neg hF2]
            exact ⟨heq, by omega, rfl⟩
    next heq => exact Or.inl ⟨_, rfl, by omega⟩

/-- A `break` inside the loop body leaves at least the 4 `DA`+`DT` bytes of
the aborted unit consumed. -/
lemma parse_one_unit_stop_le {frame_bytes : List Nat} {dir afn offset o1 : Nat}
    (h : parse_one_unit frame_bytes dir afn offset = StepResult.stop o1) :
    offset + 4 ≤ o1 := by
  rcases parse_one_unit_spec frame_bytes dir afn offset with ⟨o2, heq, hle⟩ | ⟨v, o2, heq, _⟩ <;>
    rw [h] at heq <;> cases heq
  exact hle

/-- A completed unit advances the offset by at least 4 bytes, never past the
end of the buffer, and satisfies `GoodUnit`. -/
lemma parse_one_unit_unit_le {frame_bytes : List Nat} {dir afn offset : Nat} {u : DataUnit}
    {o1 : Nat} (h : parse_one_unit frame_bytes dir afn offset = StepResult.unit u o1) :
    offset + 4 ≤ o1 ∧ o1 ≤ frame_bytes.length ∧ GoodUnit frame_bytes dir afn offset u := by
  rcases parse_one_unit_spec frame_bytes dir afn offset with ⟨o2, heq, hle⟩ | ⟨v, o2, heq, h1, h2, h3⟩ <;>
    rw [h] at heq <;> cases heq
  exact ⟨h1, h2, h3⟩

/-- The scan loop never moves the offset backwards. -/
lemma parse_data_units_offset_le (frame_bytes : List Nat) (dir afn : Nat) :
    ∀ (fuel offset : Nat) (acc : List DataUnit),
      offset ≤ (parse_data_units frame_bytes dir afn fuel offset acc).2 := by
  intro fuel
  induction fuel with
  | zero => intro offset acc; exact Nat.le_refl _
  | succ fuel ih =>
    intro offset acc
    rw [parse_data_units]
    split
    · split
      · exact Nat.le_refl _
      · cases hstep : parse_one_unit frame_bytes dir afn offset with
        | stop o1 =>
          have := parse_one_unit_stop_le hstep
          dsimp only
          omega
        | unit u o1 =>
          obtain ⟨ha, -, -⟩ := parse_one_unit_unit_le hstep
          dsimp only
          exact le_trans (by omega) (ih o1 (acc ++ [u]))
    · exact Nat.le_refl _

/-- Every unit the scan returns was either already accumulated or satisfies
`GoodUnit` at the offset where its `DA` byte was read. -/
lemma parse_data_units_mem (frame_bytes : List Nat) (dir afn : Nat) :
    ∀ (fuel offset : Nat) (acc : List DataUnit) (u : DataUnit),
      u ∈ (parse_data_units frame_bytes dir afn fuel offset acc).1 →
      u ∈ acc ∨ ∃ o, GoodUnit frame_bytes dir afn o u := by
  intro fuel
  induction fuel with
  | zero => intro offset acc u hu; exact Or.inl hu
  | succ fuel ih =>
    intro offset acc u hu
    rw [parse_data_units] at hu
    split at hu
    · split at hu
      · exact Or.inl hu
      · cases hstep : parse_one_unit frame_bytes dir afn offset with
        | stop o1 =>
          rw [hstep] at hu
          exact Or.inl hu
        | unit v o1 =>
          rw [hstep] at hu
          dsimp only at hu
          rcases ih o1 (acc ++ [v]) u hu with hmem | hgood
          · rcases List.mem_append.mp hmem with h | h
            · exact Or.inl h
            · obtain ⟨-, -, hg⟩ := parse_one_unit_unit_le hstep
              exact Or.inr ⟨offset, (List.mem_singleton.mp h) ▸ hg⟩
          · exact Or.inr hgood
    · exact Or.inl hu

/-- Each appended unit costs at least 4 bytes of the remaining buffer. -/
lemma parse_data_units_length (frame_bytes : List Nat) (dir afn : Nat) :
    ∀ (fuel offset : Nat) (acc : List DataUnit),
      4 * (parse_data_units frame_bytes dir afn fuel offset acc).1.length ≤
        4 * acc.length + (frame_bytes.length - offset) := by
  intro fuel
  induction fuel with
  | zero => intro offset acc; dsimp [parse_data_units]; omega
  | succ fuel ih =>
    intro offset acc
    rw [parse_data_units]
    split
    next hg =>
      split
      next => dsimp only; omega
      next =>
        cases hstep : parse_one_unit frame_bytes dir afn offset with
        | stop o1 => dsimp only; omega
        | unit v o1 =>
          obtain ⟨h4, hL, -⟩ := parse_one_unit_unit_le hstep
          dsimp only
          have hrec := ih o1 (acc ++ [v])
          have hlen : (acc ++ [v]).length = acc.length + 1 := by simp
          omega
    next => dsimp only; omega

/-- Any fuel of at least a quarter of the remaining byte count gives the
same scan result: the Python `while` loop terminates within that many
passes, so the fuel value `frame_bytes.length` used by `parse_frame` is
never exhausted. -/
lemma parse_data_units_fuel (frame_bytes : List Nat) (dir afn : Nat) :
    ∀ (fuel offset : Nat) (acc : List DataUnit) (k : Nat),
      frame_bytes.length - offset ≤ 4 * fuel →
      parse_data_units frame_bytes dir afn (fuel + k) offset acc =
        parse_data_units frame_bytes dir afn fuel offset acc := by
  intro fuel
  induction fuel with
  | zero =>
    intro offset acc k h
    rw [parse_data_units_stop _ _ _ _ _ _ (by omega),
      parse_data_units_stop _ _ _ _ _ _ (by omega)]
  | succ fuel ih =>
    intro offset acc k h
    rw [show fuel + 1 + k = (fuel + k) + 1 by omega]
    rw [parse_data_units, parse_data_units]
    split
    next hg =>
      split
      next => rfl
      next =>
        cases hstep : parse_one_unit frame_bytes dir afn offset with
        | stop o1 => rfl
        | unit v o1 =>
          obtain ⟨h4, hL, -⟩ := parse_one_unit_unit_le hstep
          exact ih o1 (acc ++ [v]) k (by omega)
    next => rfl

/-- The gate `dir == 1 and afn == 6` can never hold when `dir` is bit 7 of
the very same `afn` byte: 6 has bit 7 clear. -/
lemma dir_afn_not_six (afn : Nat) : ¬((afn &&& 0x80) >>> 7 = 1 ∧ afn = 6) := by
  rintro ⟨h1, rfl⟩
  exact absurd h1 (by decide)

/-- Every unit of a decoded frame satisfies `GoodUnit` at some offset. -/
lemma mkFrame_units_good (b : List Nat) (u : DataUnit)
    (hu : u ∈ (mkFrame b).data_units) :
    ∃ o, GoodUnit b (mkFrame b).dir (mkFrame b).afn o u := by
  have hu' : u ∈ (parse_data_units b (((b[12]?).getD 0 &&& 0x80) >>> 7)
      ((b[12]?).getD 0) b.length 15 []).1 := by
    simpa [mkFrame] using hu
  rcases parse_data_units_mem b _ _ b.length 15 [] u hu' with h | h
  · cases h
  · simpa [mkFrame] using h


/-- A complete 15-byte header (start `68`, length `000C`, start `68`, 8
address bytes, `afn = 0` so `dir = 0`, sequence `3161`). -/
def hdr15 : List Nat :=
  [0x68, 0x00, 0x0C, 0x68, 0x23, 0x35, 0x00, 0x10, 0x00, 0x00, 0x00, 0x11, 0x00, 0x31, 0x61]

/-- Header followed by one type-1 (signed 4-byte) unit with value 1. -/
def B_fixed : List Nat := hdr15 ++ [0x01, 0x01, 0x00, 0x01, 0x00, 0x00, 0x00, 0x01]

/-- The unit decoded from `B_fixed`. -/
def U_fixed : DataUnit := ⟨[1, 1], 1, [0, 1], DataValue.int 1, none, DType.F1, 4⟩

/-- Header followed by a type-8 unit whose next 4 bytes are `00000001` and
which is followed by 4 further bytes. -/
def B_u8_claim : List Nat :=
  hdr15 ++ [0x01, 0x01, 0x00, 0x08, 0x00, 0x00, 0x00, 0x01, 0x00, 0x00, 0x00, 0x02]

/-- Header followed by a type-8 unit whose next 8 bytes encode 1. -/
def B_u8 : List Nat :=
  hdr15 ++ [0x01, 0x01, 0x00, 0x08, 0x00, 0x00, 0x00, 0x00, 0x00, 0x00, 0x00, 0x01]

/-- The unit decoded from `B_u8`. -/
def U_u8 : DataUnit := ⟨[1, 1], 1, [0, 8], DataValue.int 1, none, DType.F4, 8⟩

/-- Header, type-2 unit, length prefix `0003`, payload `ABC`. -/
def B_abc : List Nat := hdr15 ++ [0x01, 0x01, 0x00, 0x02, 0x00, 0x03, 0x41, 0x42, 0x43]

/-- The unit decoded from `B_abc`. -/
def U_abc : DataUnit := ⟨[1, 1], 1, [0, 2], DataValue.text "ABC", none, DType.F2, 3⟩

/-- Header, type-2 unit, length prefix `0003`, payload with one non-ASCII
byte (`FF 41 42`). -/
def B_abc_drop : List Nat := hdr15 ++ [0x01, 0x01, 0x00, 0x02, 0x00, 0x03, 0xFF, 0x41, 0x42]

/-- Header, type-2 unit, length prefix `0005` but only 3 payload bytes. -/
def B_text_trunc : List Nat := hdr15 ++ [0x01, 0x01, 0x00, 0x02, 0x00, 0x05, 0x12, 0x34, 0x56]

/-- Header, type-1 unit header, then only 3 bytes (`AB CD EF`): too few for
the 4-byte value, so the scan breaks after consuming the unit header. -/
def B_cut_fixed : List Nat := hdr15 ++ [0x01, 0x01, 0x00, 0x01, 0xAB, 0xCD, 0xEF]

/-- Header, type-2 unit header and length prefix `0005`, then only 2 bytes:
too few for the payload, so the scan breaks after consuming the prefix. -/
def B_cut_text : List Nat := hdr15 ++ [0x01, 0x01, 0x00, 0x02, 0x00, 0x05, 0x12, 0x34]

/-- The Python truthiness test `da_l & (1 << i)` is the bit test on `da_l`. -/
lemma and_one_shift_ne (n i : Nat) : (n &&& (1 <<< i) ≠ 0) ↔ n.testBit i := by
  rw [Nat.shiftLeft_eq, one_mul, Nat.and_two_pow]
  cases h : n.testBit i <;> simp [h]

/-- Accumulator form of a conditional addition. -/
lemma ite_acc_add (P : Prop) [Decidable P] (a x : Int) :
    (if P then a + x else a) = a + (if P then x else 0) := by
  split <;> simp

/-- C2 counterexample: the claim says every buffer shorter than 15 bytes
fails with `TruncatedHeader`, but a 13-byte buffer decodes successfully
(the 2-byte `length` and `seq` fields are sliced, and Python slicing
tolerates truncation). -/
theorem C2_counterexample :
    (List.replicate 13 0).length < 15 ∧
      (parse_frame (List.replicate 13 0)).isSome = true := by decide

/-- C2 (amended): decoding fails, returning no partial frame, exactly when
the buffer is shorter than 13 bytes; for 13 bytes and more the header phase
succeeds. -/
theorem C2_header_threshold :
    ∀ buf : List Nat, (parse_frame buf).isSome ↔ 13 ≤ buf.length := by
  intro buf
  rw [parse_frame_eq]
  by_cases h : 13 ≤ buf.length <;> simp [h]

/-- C3: a decoded unit carries a result code exactly when `dir = 1` and the
raw function byte equals 6, and under an outbound direction no result-code
byte is consumed. -/
theorem C3_result_code_gate :
    ∀ (buf : List Nat) (f : Frame), parse_frame buf = some f →
      ∀ u ∈ f.data_units,
        (u.result_code ≠ none ↔ (f.dir = 1 ∧ f.afn = 6)) ∧
        (f.dir = 0 → u.result_code = none) := by
  intro buf f hf u hu
  obtain ⟨hl, rfl⟩ := parse_frame_some hf
  obtain ⟨o, hgood⟩ := mkFrame_units_good buf u hu
  obtain ⟨-, -, -, -, hRC, -⟩ := hgood
  constructor
  · rw [Ne, hRC, not_not]
  · intro hd0
    refine hRC.mpr ?_
    rw [hd0]
    simp

/-- C3 witness at `B_fixed`. -/
theorem C3_witness :
    (U_fixed.result_code ≠ none ↔ ((mkFrame B_fixed).dir = 1 ∧ (mkFrame B_fixed).afn = 6)) ∧
    ((mkFrame B_fixed).dir = 0 → U_fixed.result_code = none) :=
  C3_result_code_gate B_fixed (mkFrame B_fixed) (by decide) U_fixed (by decide)

/-- C4: no decoded unit ever carries a result code, because the gate needs
`dir = 1` and `afn = 6` for the same function byte, and 6 has bit 7 clear. -/
theorem C4_result_code_always_none :
    ∀ (buf : List Nat) (f : Frame), parse_frame buf = some f →
      ∀ u ∈ f.data_units, u.result_code = none := by
  intro buf f hf u hu
  obtain ⟨hl, rfl⟩ := parse_frame_some hf
  obtain ⟨o, hgood⟩ := mkFrame_units_good buf u hu
  obtain ⟨-, -, -, -, hRC, -⟩ := hgood
  refine hRC.mpr ?_
  have hdir : (mkFrame buf).dir = ((mkFrame buf).afn &&& 0x80) >>> 7 := rfl
  rw [hdir]
  exact dir_afn_not_six _

/-- C4 witness at `B_fixed`. -/
theorem C4_witness : U_fixed.result_code = none :=
  C4_result_code_always_none B_fixed (mkFrame B_fixed) (by decide) U_fixed (by decide)

/-- C9: the data-unit scan is bounded — a decoded frame has at most
`buffer length / 4` units (each unit consumes at least 4 bytes), and any
fuel of at least a quarter of the remaining bytes makes the loop finish,
so it terminates in O(buffer length) passes. -/
theorem C9_loop_bound :
    (∀ (buf : List Nat) (f : Frame), parse_frame buf = some f →
      4 * f.data_units.length ≤ buf.length ∧ f.data_units.length ≤ buf.length / 4) ∧
    (∀ (buf : List Nat) (dir afn fuel k offset : Nat) (acc : List DataUnit),
      buf.length - offset ≤ 4 * fuel →
      parse_data_units buf dir afn (fuel + k) offset acc =
        parse_data_units buf dir afn fuel offset acc) := by
  constructor
  · intro buf f hf
    obtain ⟨hl, rfl⟩ := parse_frame_some hf
    have hb := parse_data_units_length buf (((buf[12]?).getD 0 &&& 0x80) >>> 7)
      ((buf[12]?).getD 0) buf.length 15 []
    have hunits : (mkFrame buf).data_units =
        (parse_data_units buf (((buf[12]?).getD 0 &&& 0x80) >>> 7)
          ((buf[12]?).getD 0) buf.length 15 []).1 := rfl
    rw [hunits]
    simp only [List.length_nil] at hb
    constructor
    · omega
    · rw [Nat.le_div_iff_mul_le (by norm_num)]
      omega
  · intro buf dir afn fuel k offset acc h
    exact parse_data_units_fuel buf dir afn fuel offset acc k h

/-- C9 witness at `B_fixed`. -/
theorem C9_witness :
    4 * (mkFrame B_fixed).data_units.length ≤ B_fixed.length ∧
    (mkFrame B_fixed).data_units.length ≤ B_fixed.length / 4 :=
  C9_loop_bound.1 B_fixed (mkFrame B_fixed) (by decide)

/-- C1 counterexample: the claim says a type-8 unit reads exactly 4 bytes,
so type 8 followed by `00000001` would decode to 1 with declared length 4;
the `dt_mapping` of the code gives type 8 a fixed length of 8, so on `B_u8_claim`
the single unit has value `0x0000000100000002 = 4294967298` and length 8. -/
theorem C1_counterexample :
    ∃ f, parse_frame B_u8_claim = some f ∧
      (f.data_units.map fun u => (u.value, u.length)) = [(DataValue.int 4294967298, 8)] ∧
      ∀ u ∈ f.data_units, u.value ≠ DataValue.int 1 ∧ u.length ≠ 4 :=
  ⟨mkFrame B_u8_claim, by decide, by decide, by decide⟩

/-- C1 (amended): a unit whose DT word decodes to 8 is typed `F4` and its
value is read as exactly 8 bytes interpreted big-endian unsigned; a type-8
unit whose next 8 bytes are `0x0000000000000001` decodes to unsigned 1 with
declared length 8. -/
theorem C1_type8_eight_bytes :
    (∀ (buf : List Nat) (f : Frame), parse_frame buf = some f →
      ∀ u ∈ f.data_units, bytesToNatBE u.DT = 8 →
        u.data_type = DType.F4 ∧ u.length = 8 ∧
        ∃ o, o + 4 + 8 ≤ buf.length ∧
          u.value = DataValue.int (bytesToNatBE ((buf.drop (o + 4)).take 8))) ∧
    (∃ f, parse_frame B_u8 = some f ∧
      (f.data_units.map fun u => (u.value, u.length)) = [(DataValue.int 1, 8)]) := by
  refine ⟨?_, ⟨mkFrame B_u8, by decide, by decide⟩⟩
  intro buf f hf u hu hdt
  obtain ⟨hl, rfl⟩ := parse_frame_some hf
  obtain ⟨o, hgood⟩ := mkFrame_units_good buf u hu
  obtain ⟨-, -, -, hTy, -, hval⟩ := hgood
  rw [hdt] at hTy hval
  rw [if_neg (by decide)] at hval
  obtain ⟨hsome, hle, hv⟩ := hval
  have hlen : u.length = 8 := (Option.some.inj (show some 8 = some u.length from hsome)).symm
  refine ⟨hTy, hlen, o, by omega, ?_⟩
  rw [hv, hTy, hlen]
  rfl

/-- C1 witness at `B_u8`. -/
theorem C1_witness :
    U_u8.data_type = DType.F4 ∧ U_u8.length = 8 ∧
    ∃ o, o + 4 + 8 ≤ B_u8.length ∧
      U_u8.value = DataValue.int (bytesToNatBE ((B_u8.drop (o + 4)).take 8)) :=
  C1_type8_eight_bytes.1 B_u8 (mkFrame B_u8) (by decide) U_u8 (by decide) (by decide)

/-- C6: a unit whose DT word decodes to 2 is typed `F2`; its 2-byte
big-endian length prefix fits the remaining buffer, and its value is that
many bytes ASCII-decoded with non-ASCII bytes dropped.  Concretely: prefix
`0003` with payload `414243` yields "ABC"; payload `FF4142` yields "AB"
(the `FF` byte dropped, not an error); and a prefix exceeding the remaining
bytes stops the scan with the unit not included. -/
theorem C6_text_units :
    (∀ (buf : List Nat) (f : Frame), parse_frame buf = some f →
      ∀ u ∈ f.data_units, bytesToNatBE u.DT = 2 →
        u.data_type = DType.F2 ∧
        ∃ o, u.length = bytesToNatBE ((buf.drop (o + 4)).take 2) ∧
          o + 6 + u.length ≤ buf.length ∧
          u.value = DataValue.text (asciiDecodeIgnore ((buf.drop (o + 6)).take u.length))) ∧
    (∃ f, parse_frame B_abc = some f ∧
      (f.data_units.map fun u => u.value) = [DataValue.text "ABC"]) ∧
    (∃ f, parse_frame B_abc_drop = some f ∧
      (f.data_units.map fun u => u.value) = [DataValue.text "AB"]) ∧
    (∃ f, parse_frame B_text_trunc = some f ∧ f.data_units = []) := by
  refine ⟨?_, ⟨mkFrame B_abc, by decide, by decide⟩,
    ⟨mkFrame B_abc_drop, by decide, by decide⟩,
    ⟨mkFrame B_text_trunc, by decide, by decide⟩⟩
  intro buf f hf u hu hdt
  obtain ⟨hl, rfl⟩ := parse_frame_some hf
  obtain ⟨o, hgood⟩ := mkFrame_units_good buf u hu
  obtain ⟨-, -, -, hTy, -, hval⟩ := hgood
  rw [hdt] at hTy hval
  rw [if_pos (show (dt_mapping 2).1 = DType.F2 from rfl)] at hval
  obtain ⟨hlen, hle, hv⟩ := hval
  exact ⟨hTy.trans rfl, o, hlen, hle, hv⟩

/-- C6 witness at `B_abc`. -/
theorem C6_witness :
    U_abc.data_type = DType.F2 ∧
    ∃ o, U_abc.length = bytesToNatBE ((B_abc.drop (o + 4)).take 2) ∧
      o + 6 + U_abc.length ≤ B_abc.length ∧
      U_abc.value = DataValue.text (asciiDecodeIgnore ((B_abc.drop (o + 6)).take U_abc.length)) :=
  C6_text_units.1 B_abc (mkFrame B_abc) (by decide) U_abc (by decide) (by decide)

/-- C7: consumed bytes of an aborted unit are never restored — whenever the
loop guard holds, the final offset of the scan lies at least 4 bytes past the
unit start, whatever happens next.  Concretely: after a type-1 unit header
with only 3 bytes left the trailer is read right after the 4 consumed
header bytes (`crc = ABCD`, `end_flag = EF`), and after a type-2 length
prefix announcing 5 bytes with only 2 left the trailer is read right after
the 6 consumed bytes (`crc = 1234`, no end flag). -/
theorem C7_no_restore :
    (∀ (buf : List Nat) (dir afn fuel offset : Nat) (acc : List DataUnit),
      3 < buf.length - offset →
      offset + 4 ≤ (parse_data_units buf dir afn (fuel + 1) offset acc).2) ∧
    (∃ f, parse_frame B_cut_fixed = some f ∧ f.data_units = [] ∧
      f.crc = some 0xABCD ∧ f.end_flag = some 0xEF) ∧
    (∃ f, parse_frame B_cut_text = some f ∧ f.data_units = [] ∧
      f.crc = some 0x1234 ∧ f.end_flag = none) := by
  refine ⟨?_, ⟨mkFrame B_cut_fixed, by decide, by decide, by decide, by decide⟩,
    ⟨mkFrame B_cut_text, by decide, by decide, by decide, by decide⟩⟩
  intro buf dir afn fuel offset acc hg
  rw [parse_data_units, if_pos hg, if_neg (by omega)]
  cases hstep : parse_one_unit buf dir afn offset with
  | stop o1 =>
    have := parse_one_unit_stop_le hstep
    dsimp only
    omega
  | unit v o1 =>
    obtain ⟨h4, -, -⟩ := parse_one_unit_unit_le hstep
    dsimp only
    exact le_trans (by omega) (parse_data_units_offset_le buf dir afn fuel o1 (acc ++ [v]))

/-- C7 witness for the general conjunct, at `B_cut_fixed`, offset 15. -/
theorem C7_witness :
    15 + 4 ≤ (parse_data_units B_cut_fixed 0 0 8 15 []).2 :=
  C7_no_restore.1 B_cut_fixed 0 0 7 15 [] (by decide)

/-- C8: truncation after a good header is not an error — every 15-byte
buffer decodes to a frame with no data units, `crc = none` and
`end_flag = none`; and in general the trailer starts at `scan_end`, sets
`crc` only when at least 2 bytes remain there, and sets `end_flag` only
when a byte remains after the (possibly absent) crc. -/
theorem C8_graceful_truncation :
    (∀ buf : List Nat, buf.length = 15 →
      ∃ f, parse_frame buf = some f ∧ f.data_units = [] ∧ f.crc = none ∧ f.end_flag = none) ∧
    (∀ (buf : List Nat) (f : Frame), parse_frame buf = some f →
      f.crc = (read_trailer buf (scan_end buf)).1 ∧
      f.end_flag = (read_trailer buf (scan_end buf)).2) ∧
    (∀ (b : List Nat) (o : Nat),
      (b.length - o < 2 → (read_trailer b o).1 = none) ∧
      (2 ≤ b.length - o → (read_trailer b o).1 = some (bytesToNatBE ((b.drop o).take 2))) ∧
      (∀ o2, o2 = (if 2 ≤ b.length - o then o + 2 else o) →
        (b.length - o2 < 1 → (read_trailer b o).2 = none) ∧
        (1 ≤ b.length - o2 → (read_trailer b o).2 = some (b.getD o2 0)))) := by
  refine ⟨?_, ?_, ?_⟩
  · intro buf h15
    have hscan : parse_data_units buf ((((buf[12]?).getD 0) &&& 0x80) >>> 7)
        ((buf[12]?).getD 0) buf.length 15 [] = ([], 15) :=
      parse_data_units_stop _ _ _ _ _ _ (by omega)
    have hunits : (mkFrame buf).data_units =
        (parse_data_units buf ((((buf[12]?).getD 0) &&& 0x80) >>> 7)
          ((buf[12]?).getD 0) buf.length 15 []).1 := rfl
    have hcrc : (mkFrame buf).crc =
        (read_trailer buf ((parse_data_units buf ((((buf[12]?).getD 0) &&& 0x80) >>> 7)
          ((buf[12]?).getD 0) buf.length 15 []).2)).1 := rfl
    have hend : (mkFrame buf).end_flag =
        (read_trailer buf ((parse_data_units buf ((((buf[12]?).getD 0) &&& 0x80) >>> 7)
          ((buf[12]?).getD 0) buf.length 15 []).2)).2 := rfl
    refine ⟨mkFrame buf, by rw [parse_frame_eq, if_pos (by omega)], ?_, ?_, ?_⟩
    · rw [hunits, hscan]
    · rw [hcrc, hscan]
      simp [read_trailer, h15]
    · rw [hend, hscan]
      simp [read_trailer, h15]
  · intro buf f hf
    obtain ⟨hl, rfl⟩ := parse_frame_some hf
    exact ⟨rfl, rfl⟩
  · intro b o
    refine ⟨?_, ?_, ?_⟩
    · intro h
      simp only [read_trailer]
      rw [if_neg (by omega)]
    · intro h
      simp only [read_trailer]
      rw [if_pos h]
    · intro o2 ho2
      by_cases h2 : 2 ≤ b.length - o
      · rw [if_pos h2] at ho2
        subst ho2
        constructor
        · intro h1
          simp only [read_trailer]
          rw [if_pos h2]
          dsimp only
          rw [if_neg (by omega)]
        · intro h1
          simp only [read_trailer]
          rw [if_pos h2]
          dsimp only
          rw [if_pos (by omega)]
      · rw [if_neg h2] at ho2
        subst ho2
        constructor
        · intro h1
          simp only [read_trailer]
          rw [if_neg h2]
          dsimp only
          rw [if_neg (by omega)]
        · intro h1
          simp only [read_trailer]
          rw [if_neg h2]
          dsimp only
          rw [if_pos (by omega)]

/-- C8 witness: a concrete 15-byte buffer. -/
theorem C8_witness :
    ∃ f, parse_frame hdr15 = some f ∧ f.data_units = [] ∧ f.crc = none ∧ f.end_flag = none :=
  C8_graceful_truncation.1 hdr15 (by decide)


/-- C5: the table-number helper is a pure function of the two DA bytes —
the sum of `base + i` over the bit indices `i` in 0..7 set in `DA_L`, with
`base = (DA_H - 1) * 8 + 1` — and on the concrete cases of the spec it returns
1, 9, 3, and 0 for a zero low byte. -/
theorem C5_table_number :
    (∀ da_h da_l : Nat,
      parse_da_table_number [da_h, da_l] =
        Finset.sum (Finset.range 8)
          (fun i => if da_l.testBit i then ((da_h : Int) - 1) * 8 + 1 + (i : Int) else 0)) ∧
    parse_da_table_number [1, 0x01] = 1 ∧
    parse_da_table_number [2, 0x01] = 9 ∧
    parse_da_table_number [1, 0x03] = 3 ∧
    (∀ da_h : Nat, parse_da_table_number [da_h, 0] = 0) := by
  refine ⟨?_, by decide, by decide, by decide, ?_⟩
  · intro da_h da_l
    unfold parse_da_table_number
    rw [show List.range 8 = [0, 1, 2, 3, 4, 5, 6, 7] from rfl]
    simp only [List.foldl_cons, List.foldl_nil, List.headD, List.getD, Finset.sum_range_succ,
      Finset.sum_range_zero, and_one_shift_ne, ite_acc_add]
    norm_num
  · intro da_h
    unfold parse_da_table_number
    rw [show List.range 8 = [0, 1, 2, 3, 4, 5, 6, 7] from rfl]
    simp

/-- C10: decoding is deterministic — it is a pure function of the buffer
(the embedding of `parse_frame` takes nothing but the buffer), so equal
buffers decode to identical frames. -/
theorem C10_deterministic :
    ∀ b1 b2 : List Nat, b1 = b2 → parse_frame b1 = parse_frame b2 := by
  intro b1 b2 h
  rw [h]

/-- C10 witness. -/
theorem C10_witness : parse_frame B_fixed = parse_frame B_fixed :=
  C10_deterministic B_fixed B_fixed rfl

